import Mathlib

/-!
Verification of `download_nfl_gamebooks.py`.

The script's provable logic is embedded shallowly:

* the week resolver `get_current_nfl_week` / `week_number` (dates are
  modelled as a signed number of seconds relative to the fixed season
  start, September 5, 2024, 00:00);
* the download-directory reconciliation step (lines 191 and 203-222 of
  the script): directory listings are lists of file names, `glob *.pdf`
  is a filter on the ".pdf" suffix, and the `while os.path.exists`
  de-duplication loop is a bounded search proven to terminate on a free
  name;
* the per-entry loop over game panels (lines 145-222), with the
  downloads produced by the browser supplied by an oracle;
* the top-level `try/except/finally` control flow (lines 65-236).
-/

namespace Gamebooks

/-! ### Week resolver (script lines 17-39) -/

/-- The Python value `(current_date - season_start).days` for a date not before the season
start, with `t` the signed offset of `current_date` from the season start
in seconds.  Python's `timedelta.days` is floor division of the total
seconds by 86400; on the non-negative branch this is `Nat` division. -/
def daysSince (t : Int) : Nat := t.toNat / 86400

/-- Script lines 17-30: week 1 before the season start, otherwise
`days // 7 + 1` capped at 18. -/
def get_current_nfl_week (t : Int) : Int :=
  if t < 0 then 1
  else
    let days := daysSince t
    let week := days / 7 + 1
    min (week : Int) 18

/-- Script line 39: `args.week if args.week is not None else
get_current_nfl_week()`. -/
def week_number (override : Option Int) (t : Int) : Int :=
  match override with
  | some w => w
  | none => get_current_nfl_week t

/-! ### Download directory reconciliation (script lines 191, 203-222)

A directory is a list of file names.  `glob(DOWNLOAD_DIR, "*.pdf")`
keeps the names ending in `".pdf"`; the before/after set difference
picks out the new files, and the `while os.path.exists` loop appends
`_1`, `_2`, ... to the game name until a free name is found. -/

/-- Membership test of `glob "*.pdf"`: the name ends in `".pdf"`. -/
def isPdf (s : String) : Bool := s.data.reverse.take 4 == ['f', 'd', 'p', '.']

/-- The `*.pdf` files of a directory listing. -/
def pdfFiles (dir : List String) : List String := dir.filter isPdf

/-- Script lines 203-204: `current_files - existing_files` on the pdf
sets sampled after and before the download trigger. -/
def new_files (dirBefore dirAfter : List String) : List String :=
  (pdfFiles dirAfter).filter (fun f => !(pdfFiles dirBefore).contains f)

/-- The sequence of names tried by the de-duplication loop:
`<g>.pdf`, then `<g>_1.pdf`, `<g>_2.pdf`, ... -/
def candidate (g : String) : Nat → String
  | 0 => g ++ ".pdf"
  | n + 1 => g ++ "_" ++ Nat.repr (n + 1) ++ ".pdf"

/-- Length of the longest name in a directory listing. -/
def maxLen (dir : List String) : Nat := dir.foldr (fun f m => max f.length m) 0

/-- The `while os.path.exists(final_filename)` loop of lines 213-217,
with explicit fuel (proved sufficient below: the loop always reaches a
free name, because names in the directory have bounded length while the
numeric suffixes grow without bound). -/
def findFreeAux (dir : List String) (g : String) : Nat → Nat → String
  | 0, i => candidate g i
  | fuel + 1, i =>
    if candidate g i ∈ dir then findFreeAux dir g fuel (i + 1) else candidate g i

/-- The name the loop of lines 213-217 settles on, starting from
`<game_name>.pdf`. -/
def final_filename (dir : List String) (g : String) : String :=
  findFreeAux dir g (10 ^ maxLen dir + 1) 0

/-- Outcome of one pass over lines 203-222: whether the
"Could not find downloaded file" warning fired, which rename (source,
destination) was performed if any, and the directory contents after. -/
structure RenameOutcome where
  warned : Bool
  rename : Option (String × String)
  dirFinal : List String
deriving DecidableEq

/-- Script lines 203-222: diff the pdf sets, take an element of the
difference as the downloaded file, and rename it unless it already
carries the target name. -/
def reconcile (dirBefore dirAfter : List String) (g : String) : RenameOutcome :=
  match new_files dirBefore dirAfter with
  | [] => ⟨true, none, dirAfter⟩
  | downloaded :: _ =>
    if downloaded = g ++ ".pdf" then ⟨false, none, dirAfter⟩
    else
      let fin := final_filename dirAfter g
      ⟨false, some (downloaded, fin), dirAfter.replace downloaded fin⟩

/-! ### The de-duplication loop always finds a free name

`Nat.repr` of a large number is a long string, so some candidate name
is longer than everything in the directory. -/

theorem toDigitsCore_length_ge_ds (b : ℕ) :
    ∀ (fuel n : ℕ) (ds : List Char), ds.length ≤ (Nat.toDigitsCore b fuel n ds).length
  | 0, _, _ => le_refl _
  | fuel + 1, n, ds => by
    simp only [Nat.toDigitsCore]
    split
    · simp
    · calc ds.length ≤ (Nat.digitChar (n % b) :: ds).length := by simp
        _ ≤ _ := toDigitsCore_length_ge_ds b fuel (n / b) _

theorem toDigitsCore_length_lower (b : ℕ) (hb : 2 ≤ b) :
    ∀ (e fuel n : ℕ) (ds : List Char), b ^ e ≤ n → e < fuel →
      e + 1 + ds.length ≤ (Nat.toDigitsCore b fuel n ds).length
  | 0, fuel + 1, n, ds, _, _ => by
    simp only [Nat.toDigitsCore]
    split
    · simp only [List.length_cons]; omega
    · have := toDigitsCore_length_ge_ds b fuel (n / b) (Nat.digitChar (n % b) :: ds)
      simp only [List.length_cons] at this
      omega
  | e + 1, fuel + 1, n, ds, hn, hf => by
    have hb0 : 0 < b := by omega
    have hdiv : b ^ e ≤ n / b := by
      rw [Nat.le_div_iff_mul_le hb0, ← pow_succ]
      exact hn
    have hne : ¬ n / b = 0 := by
      have : 0 < b ^ e := Nat.pos_pow_of_pos e hb0
      omega
    simp only [Nat.toDigitsCore, if_neg hne]
    have := toDigitsCore_length_lower b hb e fuel (n / b)
      (Nat.digitChar (n % b) :: ds) hdiv (by omega)
    simp only [List.length_cons] at this
    omega

theorem repr_length_lower (e n : ℕ) (h : 10 ^ e ≤ n) :
    e + 1 ≤ (Nat.repr n).length := by
  have he : e < n + 1 := by
    have h1 : e < 10 ^ e := Nat.lt_pow_self (by norm_num) e
    omega
  have := toDigitsCore_length_lower 10 (by norm_num) e (n + 1) n [] h he
  simpa [Nat.repr, Nat.toDigits, String.length, List.asString] using this

theorem maxLen_cons (a : String) (l : List String) :
    maxLen (a :: l) = max a.length (maxLen l) := rfl

theorem length_le_maxLen {dir : List String} {x : String} (hx : x ∈ dir) :
    x.length ≤ maxLen dir := by
  induction dir with
  | nil => cases hx
  | cons a l ih =>
    rw [List.mem_cons] at hx
    rw [maxLen_cons]
    rcases hx with rfl | hx
    · exact le_max_left _ _
    · exact le_trans (ih hx) (le_max_right _ _)

theorem candidate_big_not_mem (dir : List String) (g : String) :
    candidate g (10 ^ maxLen dir) ∉ dir := by
  intro hmem
  have hlen := length_le_maxLen hmem
  have hpos : 10 ^ maxLen dir ≠ 0 := by positivity
  obtain ⟨m, hm⟩ := Nat.exists_eq_succ_of_ne_zero hpos
  rw [hm] at hmem hlen
  simp only [Nat.succ_eq_add_one] at hmem hlen
  have hrepr : maxLen dir + 1 ≤ (Nat.repr (m + 1)).length :=
    repr_length_lower _ _ (le_of_eq hm)
  have h1 : "_".length = 1 := rfl
  have h2 : ".pdf".length = 4 := rfl
  have hcand : (candidate g (m + 1)).length =
      g.length + 1 + (Nat.repr (m + 1)).length + 4 := by
    simp only [candidate, String.length_append, h1, h2]
  omega

theorem findFreeAux_first_free (dir : List String) (g : String) :
    ∀ (fuel start : ℕ), (∃ j, j < fuel ∧ candidate g (start + j) ∉ dir) →
      ∃ n, start ≤ n ∧ findFreeAux dir g fuel start = candidate g n ∧
        candidate g n ∉ dir ∧ ∀ m, start ≤ m → m < n → candidate g m ∈ dir
  | 0, start, h => by
    obtain ⟨j, hj, _⟩ := h
    omega
  | fuel + 1, start, h => by
    by_cases hc : candidate g start ∈ dir
    · have h' : ∃ j, j < fuel ∧ candidate g (start + 1 + j) ∉ dir := by
        obtain ⟨j, hj, hfree⟩ := h
        match j with
        | 0 => exact absurd hc (by simpa using hfree)
        | j' + 1 => exact ⟨j', by omega, by rw [show start + 1 + j' = start + (j' + 1) by omega]; exact hfree⟩
      obtain ⟨n, hsn, heq, hfree, hmin⟩ := findFreeAux_first_free dir g fuel (start + 1) h'
      refine ⟨n, by omega, ?_, hfree, ?_⟩
      · simp only [findFreeAux, if_pos hc]; exact heq
      · intro m hm1 hm2
        rcases eq_or_lt_of_le hm1 with rfl | h3
        · exact hc
        · exact hmin m (by omega) hm2
    · exact ⟨start, le_refl _, by simp only [findFreeAux, if_neg hc], hc,
        fun m hm1 hm2 => absurd hm1 (by omega)⟩

theorem final_filename_first_free (dir : List String) (g : String) :
    ∃ n, final_filename dir g = candidate g n ∧ candidate g n ∉ dir ∧
      ∀ m, m < n → candidate g m ∈ dir := by
  obtain ⟨n, _, heq, hf, hmin⟩ := findFreeAux_first_free dir g (10 ^ maxLen dir + 1) 0
    ⟨10 ^ maxLen dir, by omega, by simpa using candidate_big_not_mem dir g⟩
  exact ⟨n, heq, hf, fun m hm => hmin m (Nat.zero_le _) hm⟩

theorem final_filename_of_target_free (dir : List String) (g : String)
    (h : g ++ ".pdf" ∉ dir) : final_filename dir g = g ++ ".pdf" := by
  obtain ⟨n, heq, _, hmin⟩ := final_filename_first_free dir g
  match n, heq with
  | 0, heq => exact heq
  | n + 1, heq => exact absurd (hmin 0 (Nat.succ_pos n)) h

/-! ### Claims C1-C4: the week resolver -/

/-- C1: with no override, for a date on or after the season start whose
day difference lies in the band `[7k, 7k+6]`, the resolver returns
`k + 1`, clamped so that it never exceeds 18. -/
theorem claim_C1_week_bands (k : ℕ) (t : ℤ) (ht : 0 ≤ t)
    (h1 : 7 * k ≤ daysSince t) (h2 : daysSince t ≤ 7 * k + 6) :
    get_current_nfl_week t = min ((k : ℤ) + 1) 18 ∧ get_current_nfl_week t ≤ 18 := by
  have hdiv : daysSince t / 7 = k := by omega
  have hval : get_current_nfl_week t = min (((k + 1 : ℕ) : ℤ)) 18 := by
    unfold get_current_nfl_week
    rw [if_neg (by omega)]
    simp only [hdiv]
  refine ⟨?_, ?_⟩
  · rw [hval]; push_cast; rfl
  · rw [hval]; exact min_le_right _ _

theorem claim_C1_week_bands_witness :
    get_current_nfl_week (8 * 86400) = min (((1 : ℕ) : ℤ) + 1) 18 ∧
      get_current_nfl_week (8 * 86400) ≤ 18 :=
  claim_C1_week_bands 1 (8 * 86400) (by decide) (by decide) (by decide)

/-- C2: with no override, every date strictly before the fixed season
start (a strictly negative offset) resolves to week 1. -/
theorem claim_C2_before_start (t : ℤ) (h : t < 0) :
    get_current_nfl_week t = 1 := by
  unfold get_current_nfl_week
  rw [if_pos h]

theorem claim_C2_before_start_witness : get_current_nfl_week (-86400) = 1 :=
  claim_C2_before_start (-86400) (by decide)

/-- C3: an explicitly supplied week override is returned exactly, for
every current date, with no validation or clamping. -/
theorem claim_C3_override_exact (w t : ℤ) : week_number (some w) t = w := rfl

/-- C4, counterexample: with override 19 the resolved week is 19, outside
`[1, 18]`, so the claim as stated (over all inputs including overrides)
fails. -/
theorem claim_C4_counterexample :
    ¬(1 ≤ week_number (some 19) 0 ∧ week_number (some 19) 0 ≤ 18) := by
  decide

/-- C4, amended: with no override the week-resolution step returns an
integer in `[1, 18]` for every current date; an override is returned
unchanged and may lie outside that interval. -/
theorem claim_C4_amended_range (t : ℤ) :
    1 ≤ week_number none t ∧ week_number none t ≤ 18 := by
  show 1 ≤ get_current_nfl_week t ∧ get_current_nfl_week t ≤ 18
  unfold get_current_nfl_week
  by_cases h : t < 0
  · rw [if_pos h]; exact ⟨le_refl 1, by norm_num⟩
  · rw [if_neg h]
    refine ⟨le_min ?_ (by norm_num), min_le_right _ _⟩
    exact_mod_cast Nat.succ_le_succ (Nat.zero_le _)

/-! ### Claims C5-C7 and C10: the rename step -/

/-- C5: if the pdf set is `{A}` before the trigger and `{A, B}` after,
the step identifies `B` as the new file and renames it to
`<identifier>.pdf` (here with the target name not already taken). -/
theorem claim_C5_diff_rename (dirBefore dirAfter : List String) (A B g : String)
    (hbefore : pdfFiles dirBefore = [A]) (hafter : pdfFiles dirAfter = [A, B])
    (hBA : B ≠ A) (htarget : g ++ ".pdf" ∉ dirAfter) :
    new_files dirBefore dirAfter = [B] ∧
    (reconcile dirBefore dirAfter g).rename = some (B, g ++ ".pdf") := by
  have hnew : new_files dirBefore dirAfter = [B] := by
    unfold new_files
    rw [hafter, hbefore]
    have hba : (B == A) = false := beq_eq_false_iff_ne.mpr hBA
    simp [List.contains, List.elem, hba]
  have hBmem : B ∈ dirAfter := by
    have hB : B ∈ pdfFiles dirAfter := by rw [hafter]; simp
    exact List.mem_of_mem_filter hB
  have hBne : B ≠ g ++ ".pdf" := fun h => htarget (h ▸ hBmem)
  have hfin := final_filename_of_target_free dirAfter g htarget
  refine ⟨hnew, ?_⟩
  unfold reconcile
  rw [hnew]
  simp [hBne, hfin]

theorem claim_C5_diff_rename_witness :
    new_files ["a.pdf"] ["a.pdf", "b.pdf"] = ["b.pdf"] ∧
    (reconcile ["a.pdf"] ["a.pdf", "b.pdf"] "SFKC").rename =
      some ("b.pdf", "SFKC" ++ ".pdf") :=
  claim_C5_diff_rename ["a.pdf"] ["a.pdf", "b.pdf"] "a.pdf" "b.pdf" "SFKC"
    (by decide) (by decide) (by decide) (by decide)

/-- C6: if the target name `<identifier>.pdf` is already taken, the new
file is renamed to `<identifier>_<n>.pdf` for the first `n ≥ 1` whose
name is free, so no existing file is overwritten. -/
theorem claim_C6_suffix_no_overwrite (dirBefore dirAfter : List String)
    (g downloaded : String) (rest : List String)
    (hnew : new_files dirBefore dirAfter = downloaded :: rest)
    (hne : downloaded ≠ g ++ ".pdf")
    (hex : g ++ ".pdf" ∈ dirAfter) :
    ∃ n, 1 ≤ n ∧
      (reconcile dirBefore dirAfter g).rename = some (downloaded, candidate g n) ∧
      candidate g n ∉ dirAfter ∧
      ∀ m, m < n → candidate g m ∈ dirAfter := by
  obtain ⟨n, heq, hfree, hmin⟩ := final_filename_first_free dirAfter g
  have hn1 : 1 ≤ n := by
    rcases Nat.eq_zero_or_pos n with rfl | h
    · exact absurd hex hfree
    · exact h
  refine ⟨n, hn1, ?_, hfree, fun m hm => hmin m hm⟩
  unfold reconcile
  rw [hnew]
  simp only [if_neg hne]
  rw [heq]

theorem claim_C6_suffix_no_overwrite_witness :
    new_files ["SFKC.pdf"] ["SFKC.pdf", "x.pdf"] = ["x.pdf"] ∧
    ∃ n, 1 ≤ n ∧
      (reconcile ["SFKC.pdf"] ["SFKC.pdf", "x.pdf"] "SFKC").rename =
        some ("x.pdf", candidate "SFKC" n) ∧
      candidate "SFKC" n ∉ ["SFKC.pdf", "x.pdf"] ∧
      ∀ m, m < n → candidate "SFKC" m ∈ ["SFKC.pdf", "x.pdf"] :=
  ⟨by decide,
    claim_C6_suffix_no_overwrite ["SFKC.pdf"] ["SFKC.pdf", "x.pdf"] "SFKC" "x.pdf" []
      (by decide) (by decide) (by decide)⟩

/-- C7: if the pdf set after the trigger equals the pdf set before it,
the step warns, performs no rename, and leaves the directory
unchanged. -/
theorem claim_C7_no_new_file (dirBefore dirAfter : List String) (g : String)
    (h : ∀ f, f ∈ pdfFiles dirAfter ↔ f ∈ pdfFiles dirBefore) :
    reconcile dirBefore dirAfter g = ⟨true, none, dirAfter⟩ := by
  have hnew : new_files dirBefore dirAfter = [] := by
    unfold new_files
    rw [List.filter_eq_nil_iff]
    intro a ha
    have hmem := (h a).mp ha
    simp [List.contains, List.elem_iff, hmem]
  unfold reconcile
  rw [hnew]

theorem claim_C7_no_new_file_witness :
    reconcile ["a.pdf"] ["a.pdf"] "SFKC" = ⟨true, none, ["a.pdf"]⟩ :=
  claim_C7_no_new_file ["a.pdf"] ["a.pdf"] "SFKC" (fun _ => Iff.rfl)

/-- C10: if the single new file already carries the target name
`<identifier>.pdf`, no rename happens and the directory is untouched,
even when suffixed variants of the identifier are present. -/
theorem claim_C10_already_target (dirBefore dirAfter : List String) (g : String)
    (h : new_files dirBefore dirAfter = [g ++ ".pdf"]) :
    reconcile dirBefore dirAfter g = ⟨false, none, dirAfter⟩ := by
  unfold reconcile
  rw [h]
  simp

theorem claim_C10_already_target_witness :
    reconcile ["SFKC_1.pdf"] ["SFKC_1.pdf", "SFKC.pdf"] "SFKC" =
      ⟨false, none, ["SFKC_1.pdf", "SFKC.pdf"]⟩ :=
  claim_C10_already_target ["SFKC_1.pdf"] ["SFKC_1.pdf", "SFKC.pdf"] "SFKC"
    (by decide)

/-! ### Per-entry loop (script lines 145-222)

A game panel carries the class-attribute tokens of its `clubRow` nodes
and whether a GAME BOOK control is present.  The files produced by each
download trigger come from an oracle `downloads`. -/

structure GamePanel where
  clubRowClasses : List (List String)
  hasGamebookButton : Bool
deriving DecidableEq

/-- The test `class_name.startswith("team")` on one class token. -/
def startsWithTeam (c : String) : Bool := c.data.take 4 == ['t', 'e', 'a', 'm']

/-- Script lines 163-171: the first class starting with `"team"`, with
that prefix removed. -/
def teamOf (classes : List String) : Option String :=
  (classes.find? startsWithTeam).map (fun c => String.mk (c.data.drop 4))

/-- Script lines 154-181: `<visitor><home>` when both team codes are
extracted and truthy, otherwise the positional `game_<i+1>`. -/
def game_name (p : GamePanel) (i : Nat) : String :=
  match p.clubRowClasses with
  | r0 :: r1 :: _ =>
    match teamOf r0, teamOf r1 with
    | some v, some h =>
      if v = "" ∨ h = "" then "game_" ++ Nat.repr (i + 1) else v ++ h
    | _, _ => "game_" ++ Nat.repr (i + 1)
  | _ => "game_" ++ Nat.repr (i + 1)

inductive EntryEvent where
  | skippedNoButton (i : Nat)
  | processed (i : Nat) (outcome : RenameOutcome)
deriving DecidableEq

/-- Script lines 183-222 for one panel: skip with a notice when the
GAME BOOK control is absent, otherwise trigger the download (the oracle
appends the produced files) and reconcile the directory. -/
def processEntry (downloads : Nat → List String) (i : Nat) (p : GamePanel)
    (dir : List String) : EntryEvent × List String :=
  if p.hasGamebookButton then
    let dirAfter := dir ++ downloads i
    let out := reconcile dir dirAfter (game_name p i)
    (.processed i out, out.dirFinal)
  else (.skippedNoButton i, dir)

/-- Script lines 145-222: the loop over all discovered panels,
threading the download directory. -/
def processAll (downloads : Nat → List String) :
    List GamePanel → Nat → List String → List EntryEvent × List String
  | [], _, dir => ([], dir)
  | p :: rest, i, dir =>
    let r := processEntry downloads i p dir
    let rs := processAll downloads rest (i + 1) r.2
    (r.1 :: rs.1, rs.2)

/-- C8: an entry without a GAME BOOK control is skipped with a notice,
triggers no download and no directory change, and the remaining entries
are processed exactly as they would be from the same state. -/
theorem claim_C8_skip_no_button (downloads : Nat → List String) (p : GamePanel)
    (rest : List GamePanel) (i : Nat) (dir : List String)
    (h : p.hasGamebookButton = false) :
    processAll downloads (p :: rest) i dir =
      (EntryEvent.skippedNoButton i :: (processAll downloads rest (i + 1) dir).1,
       (processAll downloads rest (i + 1) dir).2) := by
  simp [processAll, processEntry, h]

theorem claim_C8_skip_no_button_witness :
    processAll (fun _ => ["new.pdf"])
        [⟨[["clubRow", "teamSF"], ["clubRow", "teamKC"]], false⟩] 0 [] =
      (EntryEvent.skippedNoButton 0 ::
        (processAll (fun _ => ["new.pdf"]) [] 1 []).1,
       (processAll (fun _ => ["new.pdf"]) [] 1 []).2) :=
  claim_C8_skip_no_button (fun _ => ["new.pdf"])
    ⟨[["clubRow", "teamSF"], ["clubRow", "teamKC"]], false⟩ [] 0 [] rfl

/-! ### Top-level control flow (script lines 65-236) -/

/-- Python `try body / except handler / finally fin` over a state `σ`:
the `finally` block runs after normal completion, after a handled
exception, and after an exception raised by the handler itself (which
then propagates). -/
def tryExceptFinally {σ : Type} (body : σ → σ × Option String)
    (handler : String → σ → σ × Option String) (fin : σ → σ) (s : σ) :
    σ × Option String :=
  match body s with
  | (s1, none) => (fin s1, none)
  | (s1, some e) =>
    match handler e s1 with
    | (s2, none) => (fin s2, none)
    | (s2, some e2) => (fin s2, some e2)

structure RunState where
  errorLogged : Bool
  browserClosed : Bool
deriving DecidableEq

def initialRun : RunState := ⟨false, false⟩

/-- Script line 235: `driver.quit()`. -/
def closeBrowser (s : RunState) : RunState := { s with browserClosed := true }

/-- Script lines 65-236: the main flow, with the body (login through
downloads) and the screenshot capture of the handler left abstract so
that every outcome of each is covered. -/
def mainFlow (body : RunState → RunState × Option String)
    (screenshot : RunState → RunState × Option String) : RunState × Option String :=
  tryExceptFinally body (fun _e s => screenshot { s with errorLogged := true })
    closeBrowser initialRun

/-- C9: on every execution path — normal completion, a caught
exception, and a further failure inside the screenshot capture — the
final cleanup closes the browser session. -/
theorem claim_C9_browser_always_closed
    (body screenshot : RunState → RunState × Option String) :
    (mainFlow body screenshot).1.browserClosed = true := by
  unfold mainFlow tryExceptFinally
  split
  · rfl
  · split
    · rfl
    · rfl

end Gamebooks
